import Mathlib

/-!
Shallow embedding of the measurement/capture logic of
`src/PYTHONS/oscilloscope_control.py` (class `ESP32Oscilloscope`).

Python floats are modelled as rationals (`ℚ`) except where the demo
synthesizer needs transcendental functions (`Real.sin`), where `ℝ` is used.
-/

set_option maxRecDepth 100000

namespace Oscilloscope

/-- Value of a decimal digit character, `none` for a non-digit. -/
def digitVal (c : Char) : Option ℕ :=
  if c.isDigit then some (c.toNat - 48) else none

/-- Accumulate a list of decimal digit characters into a natural number;
`none` if any character is not a digit. -/
def digitsToNat : List Char → ℕ → Option ℕ
  | [], acc => some acc
  | c :: cs, acc =>
    match digitVal c with
    | some d => digitsToNat cs (acc * 10 + d)
    | none => none

/-- Model of Python `int(s)` on a plain signed decimal string: optional
sign followed by at least one digit; anything else raises `ValueError`
(modelled as `none`). -/
def parsePyInt (s : String) : Option ℤ :=
  match s.toList with
  | [] => none
  | c :: cs =>
    if c = '-' then
      match cs with
      | [] => none
      | _ => (digitsToNat cs 0).map (fun n => -(n : ℤ))
    else if c = '+' then
      match cs with
      | [] => none
      | _ => (digitsToNat cs 0).map (fun n => (n : ℤ))
    else
      (digitsToNat (c :: cs) 0).map (fun n => (n : ℤ))

/-- Value of a fractional digit string `d₁…dₖ` as `d₁…dₖ / 10^k`. -/
def fracVal (cs : List Char) : Option ℚ :=
  (digitsToNat cs 0).map (fun n => (n : ℚ) / 10 ^ cs.length)

/-- Unsigned part of Python `float(s)`: digits, optionally followed by a
dot and more digits; at least one digit overall. -/
def parseUnsignedFloat (cs : List Char) : Option ℚ :=
  let ip := cs.takeWhile (·.isDigit)
  let rest := cs.dropWhile (·.isDigit)
  match rest with
  | [] =>
    if ip.isEmpty then none
    else (digitsToNat ip 0).map (fun n => (n : ℚ))
  | p :: fp =>
    if p = '.' ∧ fp.all (·.isDigit) ∧ ¬(ip.isEmpty ∧ fp.isEmpty) then
      (digitsToNat ip 0).bind (fun n => (fracVal fp).map (fun f => (n : ℚ) + f))
    else none

/-- Model of Python `float(s)` on a plain signed decimal literal (given
as a character list): optional sign then digits with an optional
fractional part; anything else raises `ValueError` (modelled as `none`). -/
def parseFloat : List Char → Option ℚ
  | [] => none
  | c :: cs =>
    if c = '-' then (parseUnsignedFloat cs).map (fun q => -q)
    else if c = '+' then parseUnsignedFloat cs
    else parseUnsignedFloat (c :: cs)

/-- Model of Python `line.split(',')`: splits a character list at every
comma, keeping empty groups, so a string with no comma yields one group. -/
def pySplitComma : List Char → List (List Char)
  | [] => [[]]
  | c :: rest =>
    if c = ',' then [] :: pySplitComma rest
    else
      match pySplitComma rest with
      | g :: gs => (c :: g) :: gs
      | [] => [[c]]

/-- Python exception classes relevant to the entry-validation handlers.
`tkinter` raises `TclError` — a direct subclass of `Exception`, not of
`ValueError` — when a `tk.IntVar` holds non-numeric text, so an
`except ValueError` clause does not catch it. -/
inductive PyErr where
  | valueError
  | tclError
deriving DecidableEq, Repr

instance {ε α : Type} [DecidableEq ε] [DecidableEq α] : DecidableEq (Except ε α) := fun a b =>
  match a, b with
  | .ok x, .ok y =>
    if h : x = y then .isTrue (congrArg Except.ok h)
    else .isFalse (fun hc => h (Except.ok.inj hc))
  | .ok _, .error _ => .isFalse (fun hc => Except.noConfusion hc)
  | .error _, .ok _ => .isFalse (fun hc => Except.noConfusion hc)
  | .error x, .error y =>
    if h : x = y then .isTrue (congrArg Except.error h)
    else .isFalse (fun hc => h (Except.error.inj hc))

/-- Model of `tkinter.IntVar.get()` on the text held by the bound entry
(source lines 164, 173 and 220, 229): Tcl first attempts an integer
parse of the text, then falls back to `int(self._tk.getdouble(value))`
(truncating toward zero), and raises `TclError` — not `ValueError` — if
both fail.  Plain signed decimals model the Tcl numeric formats. -/
def intVarGet (s : String) : Except PyErr ℤ :=
  match parsePyInt s with
  | some n => .ok n
  | none =>
    match parseFloat s.toList with
    | some q => .ok (q.num.tdiv (q.den : ℤ))
    | none => .error .tclError

/-- Embeds `validate_and_update_freq` (source lines 392-405):
`int(self.freq_var.get())` is evaluated inside `try`; a fetched value is
clamped to 1..50000 and published with no dialog.  The
`except ValueError` branch would reset the frequency to the default 1000
and show an error dialog, but it catches only `ValueError`, so a
`TclError` raised by `IntVar.get()` on non-numeric text propagates
uncaught (modelled as `.error`). -/
def validate_and_update_freq (s : String) : Except PyErr (ℤ × Bool) :=
  match intVarGet s with
  | .ok freq =>
    let freq := if freq < 1 then 1 else if freq > 50000 then 50000 else freq
    .ok (freq, false)
  | .error e =>
    if e = .valueError then .ok (1000, true) else .error e

/-- Embeds `validate_and_update_amp` (source lines 407-420): same
structure as the frequency validator with range 0..255 and default 200;
the `except ValueError` branch likewise misses the `TclError` raised by
`IntVar.get()` on non-numeric text. -/
def validate_and_update_amp (s : String) : Except PyErr (ℤ × Bool) :=
  match intVarGet s with
  | .ok amp =>
    let amp := if amp < 0 then 0 else if amp > 255 then 255 else amp
    .ok (amp, false)
  | .error e =>
    if e = .valueError then .ok (200, true) else .error e

/-- State of the serial capture loop in `_capture_thread`:
the `capturing` flag and the two accumulated data lists. -/
structure CaptureState where
  capturing : Bool
  time_data : List ℚ
  voltage_data : List ℚ
deriving DecidableEq, Repr

/-- Embeds the body of the `elif capturing and ',' in line:` branch of
`_capture_thread` (source lines 658-664).  `t, v = line.split(',')`
raises unless the split has exactly two parts; then `float(t)` is
evaluated and its result appended to `time_data` (divided by 1000)
BEFORE `float(v)` is evaluated, so a line whose time parses but whose
voltage does not leaves `time_data` one element longer. -/
def processDataLine (td vd : List ℚ) (line : String) : List ℚ × List ℚ :=
  match pySplitComma line.toList with
  | [t, v] =>
    match parseFloat t with
    | none => (td, vd)
    | some tq =>
      let td := td ++ [tq / 1000]
      match parseFloat v with
      | none => (td, vd)
      | some vq => (td, vd ++ [vq])
  | _ => (td, vd)

/-- Embeds the read loop of `_capture_thread` (source lines 648-664) over
the finite list of stripped lines read before the 5-second timeout:
`SCOPE_START` resets the lists and starts accumulation, `SCOPE_END`
breaks out, a data line is processed only while capturing, and exhausting
the input (the timeout) leaves the accumulated state as is. -/
def capture_loop : List String → CaptureState → CaptureState
  | [], s => s
  | line :: rest, s =>
    if line = "SCOPE_START" then
      capture_loop rest ⟨true, [], []⟩
    else if line = "SCOPE_END" then s
    else if s.capturing && line.toList.contains ',' then
      let (td, vd) := processDataLine s.time_data s.voltage_data line
      capture_loop rest ⟨s.capturing, td, vd⟩
    else
      capture_loop rest s

/-- Embeds `_capture_thread` (source lines 637-672): runs the read loop
from the initial non-capturing state and publishes the accumulated
`(time_data, voltage_data)` pair into the shared buffer. -/
def capture_thread (lines : List String) : List ℚ × List ℚ :=
  let s := capture_loop lines ⟨false, [], []⟩
  (s.time_data, s.voltage_data)

/-- State touched by `update_display` and `clear_display`: the published
sample buffer `scope_data` (time and voltage lists) and the five
measurement label texts. -/
structure ScopeState where
  time_data : List ℚ
  voltage_data : List ℚ
  vmax_label : String
  vmin_label : String
  vpp_label : String
  vavg_label : String
  freq_label : String
deriving DecidableEq, Repr

/-- Python `max(v :: vs)` on a non-empty list. -/
def pyMax (v : ℚ) (vs : List ℚ) : ℚ :=
  vs.foldl max v

/-- Python `min(v :: vs)` on a non-empty list. -/
def pyMin (v : ℚ) (vs : List ℚ) : ℚ :=
  vs.foldl min v

/-- Model of `np.mean(l)`: arithmetic mean, sum divided by length. -/
def pyMean (l : List ℚ) : ℚ :=
  l.sum / l.length

/-- Embeds the crossing-count loop of `update_display` (source lines
720-723): counts indices `i ≥ 1` with
`voltage_data[i-1] < v_avg <= voltage_data[i]`. -/
def countCrossings (m : ℚ) : List ℚ → ℕ
  | a :: b :: rest => (if a < m ∧ m ≤ b then 1 else 0) + countCrossings m (b :: rest)
  | _ => 0

/-- Embeds the frequency-estimation block of `update_display` (source
lines 719-726) on a non-empty buffer: rising mean-crossings are counted,
`duration = time_data[-1] - time_data[0]`, and the displayed estimate is
`(crossings / duration) * 1000` when the duration is positive, else 0. -/
def freqEstimate (t0 : ℚ) (ts : List ℚ) (v0 : ℚ) (vs : List ℚ) : ℚ :=
  let v_avg := pyMean (v0 :: vs)
  let crossings := countCrossings v_avg (v0 :: vs)
  let duration := (t0 :: ts).getLastD 0 - t0
  if duration > 0 then ((crossings : ℚ) / duration) * 1000 else 0

/-- Embeds `update_display` (source lines 699-733).  An empty time list
returns immediately, leaving the state untouched.  With a non-empty time
list but an empty voltage list, Python `max([])` raises `ValueError`
(modelled as `none`).  Otherwise the five measurement labels are set to
the formatted measurement values (`fmt` stands for the `f"{x:.3f}"` /
`f"{x:.1f}"` string formatting). -/
def update_display (fmt : ℚ → String) (s : ScopeState) : Option ScopeState :=
  match s.time_data, s.voltage_data with
  | [], _ => some s
  | _ :: _, [] => none
  | t0 :: ts, v0 :: vs =>
    let v_max := pyMax v0 vs
    let v_min := pyMin v0 vs
    let v_pp := v_max - v_min
    let v_avg := pyMean (v0 :: vs)
    some { s with
      vmax_label := fmt v_max
      vmin_label := fmt v_min
      vpp_label := fmt v_pp
      vavg_label := fmt v_avg
      freq_label := fmt (freqEstimate t0 ts v0 vs) }

/-- Embeds `clear_display` (source lines 735-745): the shared buffer is
replaced by two empty lists and every measurement label is reset to the
placeholder text. -/
def clear_display (s : ScopeState) : ScopeState :=
  { s with
    time_data := []
    voltage_data := []
    vmax_label := "----"
    vmin_label := "----"
    vpp_label := "----"
    vavg_label := "----"
    freq_label := "----" }

/-- Model of `np.linspace(a, b, n)`: `n` evenly spaced points from `a`
to `b` inclusive. -/
def np_linspace (a b : ℚ) (n : ℕ) : List ℚ :=
  (List.range n).map (fun i : ℕ => a + (b - a) * (i : ℚ) / ((n : ℚ) - 1))

/-- Embeds the waveform dispatch of `generate_demo_data` (source lines
614-623) as a function of the product `f·t`: `np.sin`, `np.sign∘np.sin`,
the triangle and sawtooth `frac`-formulas, and `np.zeros_like` for any
other waveform string. -/
noncomputable def signalAt (wave_type : String) (ft : ℝ) : ℝ :=
  if wave_type = "SINE" then Real.sin (2 * Real.pi * ft)
  else if wave_type = "SQUARE" then Real.sign (Real.sin (2 * Real.pi * ft))
  else if wave_type = "TRIANGLE" then 2 * |2 * Int.fract ft - 1| - 1
  else if wave_type = "SAWTOOTH" then 2 * Int.fract ft - 1
  else 0

/-- Embeds `generate_demo_data` (source lines 603-633): 1000 sample
times from `np.linspace(0, 100, 1000)` (milliseconds), `t = time/1000`
seconds, amplitude scaled by 255, voltage
`1.65 + amp * 1.5 * signal + noise`.  The Gaussian noise vector
`np.random.normal(0, 0.015, 1000)` is passed in as the list `noise`. -/
noncomputable def generate_demo_data (wave_type : String) (freq amp_raw : ℚ)
    (noise : List ℝ) : List ℚ × List ℝ :=
  let samples : ℕ := 1000
  let time_data := np_linspace 0 100 samples
  let amp := amp_raw / 255
  let voltage_data := List.zipWith
    (fun td nz => 1.65 + (amp : ℝ) * 1.5 * signalAt wave_type (((freq * (td / 1000) : ℚ)) : ℝ) + nz)
    time_data noise
  (time_data, voltage_data)

/-- Connection flags of the application (source lines 21-22):
`self.connected` and `self.demo_mode`. -/
structure ConnState where
  connected : Bool
  demo_mode : Bool
deriving DecidableEq, Repr

/-- The initial state set in `__init__`: disconnected, demo off. -/
def initConnState : ConnState :=
  ⟨false, false⟩

/-- One user-visible transition of the connection flags.
`connect` (source lines 493-516) requires demo mode off (the CONNECT
button is disabled in demo mode) and is reached through
`toggle_connection` only when not connected; on success it sets
`connected := true` and `demo_mode := false`.
`disconnect` (source lines 518-533) clears `connected`.
`toggle_demo_mode` (source lines 535-557) requires not connected (the
DEMO button is disabled while connected) and flips `demo_mode`. -/
inductive ConnStep : ConnState → ConnState → Prop
  | connect (s : ConnState) (hdemo : s.demo_mode = false)
      (hconn : s.connected = false) : ConnStep s ⟨true, false⟩
  | disconnect (s : ConnState) : ConnStep s ⟨false, s.demo_mode⟩
  | toggle_demo (s : ConnState) (hconn : s.connected = false) :
      ConnStep s ⟨s.connected, !s.demo_mode⟩

/-- States reachable from the initial disconnected state by the
connect / disconnect / toggle-demo transitions. -/
inductive ConnReachable : ConnState → Prop
  | start : ConnReachable initConnState
  | step {s t : ConnState} (hs : ConnReachable s) (hstep : ConnStep s t) :
      ConnReachable t

/-! ### Helper lemmas -/

theorem foldl_max_mem (v : ℚ) (vs : List ℚ) : vs.foldl max v ∈ v :: vs := by
  induction vs generalizing v with
  | nil => simp
  | cons w ws ih =>
    have h := ih (max v w)
    rcases List.mem_cons.mp h with h | h
    · rcases max_choice v w with hm | hm
      · rw [List.foldl_cons, h, hm]
        exact List.mem_cons_self _ _
      · rw [List.foldl_cons, h, hm]
        exact List.mem_cons_of_mem _ (List.mem_cons_self _ _)
    · rw [List.foldl_cons]
      exact List.mem_cons_of_mem _ (List.mem_cons_of_mem _ h)

theorem le_foldl_max_init (v : ℚ) (vs : List ℚ) : v ≤ vs.foldl max v := by
  induction vs generalizing v with
  | nil => simp
  | cons w ws ih =>
    calc v ≤ max v w := le_max_left v w
    _ ≤ ws.foldl max (max v w) := ih (max v w)

theorem le_foldl_max (v x : ℚ) (vs : List ℚ) (hx : x ∈ v :: vs) : x ≤ vs.foldl max v := by
  induction vs generalizing v with
  | nil => simp at hx; simp [hx]
  | cons w ws ih =>
    rw [List.foldl_cons]
    rcases List.mem_cons.mp hx with h | h
    · subst h
      calc x ≤ max x w := le_max_left x w
      _ ≤ ws.foldl max (max x w) := le_foldl_max_init _ _
    · rcases List.mem_cons.mp h with h | h
      · subst h
        calc x ≤ max v x := le_max_right v x
        _ ≤ ws.foldl max (max v x) := le_foldl_max_init _ _
      · exact ih (max v w) (List.mem_cons_of_mem _ h)

theorem foldl_min_mem (v : ℚ) (vs : List ℚ) : vs.foldl min v ∈ v :: vs := by
  induction vs generalizing v with
  | nil => simp
  | cons w ws ih =>
    have h := ih (min v w)
    rcases List.mem_cons.mp h with h | h
    · rcases min_choice v w with hm | hm
      · rw [List.foldl_cons, h, hm]
        exact List.mem_cons_self _ _
      · rw [List.foldl_cons, h, hm]
        exact List.mem_cons_of_mem _ (List.mem_cons_self _ _)
    · rw [List.foldl_cons]
      exact List.mem_cons_of_mem _ (List.mem_cons_of_mem _ h)

theorem foldl_min_init_le (v : ℚ) (vs : List ℚ) : vs.foldl min v ≤ v := by
  induction vs generalizing v with
  | nil => simp
  | cons w ws ih =>
    calc ws.foldl min (min v w) ≤ min v w := ih (min v w)
    _ ≤ v := min_le_left v w

theorem foldl_min_le (v x : ℚ) (vs : List ℚ) (hx : x ∈ v :: vs) : vs.foldl min v ≤ x := by
  induction vs generalizing v with
  | nil => simp at hx; simp [hx]
  | cons w ws ih =>
    rw [List.foldl_cons]
    rcases List.mem_cons.mp hx with h | h
    · subst h
      calc ws.foldl min (min x w) ≤ min x w := foldl_min_init_le _ _
      _ ≤ x := min_le_left x w
    · rcases List.mem_cons.mp h with h | h
      · subst h
        calc ws.foldl min (min v x) ≤ min v x := foldl_min_init_le _ _
        _ ≤ x := min_le_right v x
      · exact ih (min v w) (List.mem_cons_of_mem _ h)

theorem exists_of_mem_zipWith {α β γ : Type} {f : α → β → γ} {l₁ : List α} {l₂ : List β}
    {c : γ} (h : c ∈ List.zipWith f l₁ l₂) : ∃ a ∈ l₁, ∃ b ∈ l₂, c = f a b := by
  induction l₁ generalizing l₂ with
  | nil => simp at h
  | cons a as ih =>
    cases l₂ with
    | nil => simp at h
    | cons b bs =>
      rcases List.mem_cons.mp h with h | h
      · exact ⟨a, List.mem_cons_self a as, b, List.mem_cons_self b bs, h⟩
      · obtain ⟨a', ha', b', hb', hc⟩ := ih h
        exact ⟨a', List.mem_cons_of_mem _ ha', b', List.mem_cons_of_mem _ hb', hc⟩

theorem update_display_eq (fmt : ℚ → String) (s : ScopeState) (t0 v0 : ℚ)
    (ts vs : List ℚ) (ht : s.time_data = t0 :: ts) (hv : s.voltage_data = v0 :: vs) :
    update_display fmt s = some { s with
      vmax_label := fmt (pyMax v0 vs)
      vmin_label := fmt (pyMin v0 vs)
      vpp_label := fmt (pyMax v0 vs - pyMin v0 vs)
      vavg_label := fmt (pyMean (v0 :: vs))
      freq_label := fmt (freqEstimate t0 ts v0 vs) } := by
  rcases s with ⟨td, vd, a, b, c, d, e⟩
  simp only at ht hv
  subst ht
  subst hv
  rfl

/-! ### Claim theorems -/

theorem intVarGet_ne_valueError (s : String) :
    intVarGet s ≠ .error PyErr.valueError := by
  unfold intVarGet
  cases parsePyInt s with
  | some n => simp
  | none =>
    cases parseFloat s.toList with
    | some q => simp
    | none => simp

/-- The reset-to-1000-with-dialog branch of the frequency validator is
dead code: whenever the validator terminates normally, no dialog was
shown, because the only fetch failure is a TclError the handler misses. -/
theorem validate_freq_never_dialog (s : String) (v : ℤ × Bool)
    (h : validate_and_update_freq s = .ok v) : v.2 = false := by
  unfold validate_and_update_freq at h
  cases hg : intVarGet s with
  | ok n =>
    rw [hg] at h
    simp only [Except.ok.injEq] at h
    subst h
    rfl
  | error e =>
    rw [hg] at h
    have he : e = PyErr.tclError := by
      cases e
      · exact absurd hg (intVarGet_ne_valueError s)
      · rfl
    subst he
    simp at h

/-- The reset-to-200-with-dialog branch of the amplitude validator is
dead code for the same reason. -/
theorem validate_amp_never_dialog (s : String) (v : ℤ × Bool)
    (h : validate_and_update_amp s = .ok v) : v.2 = false := by
  unfold validate_and_update_amp at h
  cases hg : intVarGet s with
  | ok n =>
    rw [hg] at h
    simp only [Except.ok.injEq] at h
    subst h
    rfl
  | error e =>
    rw [hg] at h
    have he : e = PyErr.tclError := by
      cases e
      · exact absurd hg (intVarGet_ne_valueError s)
      · rfl
    subst he
    simp at h

/-- C6 (violation at the failing input): integer entry texts are clamped
as claimed ("60000" to 50000, "-5" to 1, "300" to 255, "-7" to 0), but
the non-numeric entry "abc" makes `IntVar.get()` raise a TclError that
the handlers' `except ValueError` does not catch: the frequency is not
reset to 1000, the amplitude is not reset to 200, and no error dialog is
shown — the uncaught error escapes into the Tk callback instead. -/
theorem entry_validation_uncaught_tclerror :
    validate_and_update_freq "60000" = .ok (50000, false) ∧
    validate_and_update_freq "-5" = .ok (1, false) ∧
    validate_and_update_freq "abc" = .error PyErr.tclError ∧
    validate_and_update_freq "abc" ≠ .ok (1000, true) ∧
    validate_and_update_amp "300" = .ok (255, false) ∧
    validate_and_update_amp "-7" = .ok (0, false) ∧
    validate_and_update_amp "abc" = .error PyErr.tclError ∧
    validate_and_update_amp "abc" ≠ .ok (200, true) := by
  decide

/-- C9: in every state reachable from the initial disconnected state by
the connect, disconnect and toggle-demo transitions, the `connected` and
`demo_mode` flags are never both true. -/
theorem conn_demo_mutually_exclusive (s : ConnState) (h : ConnReachable s) :
    ¬(s.connected = true ∧ s.demo_mode = true) := by
  induction h with
  | start => simp [initConnState]
  | step hs hstep ih =>
    cases hstep with
    | connect hdemo hconn => simp
    | disconnect => simp
    | toggle_demo hconn => simp [hconn]

/-- Witness for C9 at the initial state. -/
theorem conn_demo_mutually_exclusive_witness :
    ¬(initConnState.connected = true ∧ initConnState.demo_mode = true) :=
  conn_demo_mutually_exclusive initConnState ConnReachable.start

/-- C8: clearing the display empties both sequences and sets every
measurement label to the placeholder "----"; updating the display with an
empty buffer skips all measurement computation and leaves the state
(labels included) unchanged. -/
theorem clear_and_empty_buffer_display (fmt : ℚ → String) (s : ScopeState) :
    (clear_display s).time_data.length = 0 ∧
    (clear_display s).voltage_data.length = 0 ∧
    (clear_display s).vmax_label = "----" ∧
    (clear_display s).vmin_label = "----" ∧
    (clear_display s).vpp_label = "----" ∧
    (clear_display s).vavg_label = "----" ∧
    (clear_display s).freq_label = "----" ∧
    (s.time_data = [] → update_display fmt s = some s) := by
  refine ⟨rfl, rfl, rfl, rfl, rfl, rfl, rfl, fun h => ?_⟩
  rcases s with ⟨td, vd, a, b, c, d, e⟩
  simp only at h
  subst h
  rfl

/-- Witness for C8: clearing a concrete state and updating a concrete
empty-buffer state. -/
theorem clear_and_empty_buffer_display_witness :
    (clear_display ⟨[1], [2], "a", "b", "c", "d", "e"⟩).vmax_label = "----" ∧
    update_display (fun _ => "x") ⟨[], [], "a", "b", "c", "d", "e"⟩ =
      some ⟨[], [], "a", "b", "c", "d", "e"⟩ :=
  ⟨(clear_and_empty_buffer_display (fun _ => "x") _).2.2.1,
   (clear_and_empty_buffer_display (fun _ => "x") _).2.2.2.2.2.2.2 rfl⟩

/-- C10: on a non-empty buffer whose last timestamp is at most its first
(for example a single sample, giving a zero span), the display update
succeeds, never divides by the span, and shows a frequency of 0. -/
theorem nonpositive_span_freq_zero (fmt : ℚ → String) (s : ScopeState) (t0 v0 : ℚ)
    (ts vs : List ℚ) (ht : s.time_data = t0 :: ts) (hv : s.voltage_data = v0 :: vs)
    (hspan : (t0 :: ts).getLastD 0 ≤ t0) :
    freqEstimate t0 ts v0 vs = 0 ∧
    ∃ out, update_display fmt s = some out ∧ out.freq_label = fmt 0 := by
  have hng : ¬((t0 :: ts).getLastD 0 - t0 > 0) := by linarith
  have hfe : freqEstimate t0 ts v0 vs = 0 := by
    simp only [freqEstimate]
    rw [if_neg hng]
  exact ⟨hfe, _, update_display_eq fmt s t0 v0 ts vs ht hv, by simp [hfe]⟩

/-- Witness for C10 on the single-sample buffer [(5, 2)]. -/
theorem nonpositive_span_freq_zero_witness :
    freqEstimate 5 [] 2 [] = 0 ∧
    ∃ out, update_display (fun _ => "x") ⟨[5], [2], "", "", "", "", ""⟩ = some out ∧
      out.freq_label = (fun _ => "x") 0 :=
  nonpositive_span_freq_zero (fun _ => "x") _ 5 2 [] [] rfl rfl
    (by with_unfolding_all decide)

/-- C1 (counterexample): on the buffer with times [0, 1] and voltages
[0, 1] there is exactly one rising mean-crossing and the time span is 1,
yet the displayed frequency estimate is 1000, not crossings divided by
the span. -/
theorem displayed_freq_not_crossings_per_span :
    freqEstimate 0 [1] 0 [1] = 1000 ∧
    countCrossings (pyMean [0, 1]) [0, 1] = 1 ∧
    ((0 : ℚ) :: [1]).getLastD 0 - 0 = 1 ∧
    freqEstimate 0 [1] 0 [1] ≠
      (countCrossings (pyMean [0, 1]) [0, 1] : ℚ) /
        (((0 : ℚ) :: [1]).getLastD 0 - 0) := by
  with_unfolding_all decide

/-- C1 (amended): for every buffer with positive time span between first
and last sample, the displayed frequency estimate equals the number of
rising mean-crossings divided by the time span, multiplied by 1000. -/
theorem displayed_freq_thousandfold_crossing_rate (fmt : ℚ → String) (s : ScopeState)
    (t0 v0 : ℚ) (ts vs : List ℚ) (ht : s.time_data = t0 :: ts)
    (hv : s.voltage_data = v0 :: vs) (hspan : 0 < (t0 :: ts).getLastD 0 - t0) :
    ∃ out, update_display fmt s = some out ∧
      out.freq_label = fmt (((countCrossings (pyMean (v0 :: vs)) (v0 :: vs) : ℚ) /
        ((t0 :: ts).getLastD 0 - t0)) * 1000) := by
  refine ⟨_, update_display_eq fmt s t0 v0 ts vs ht hv, ?_⟩
  simp only [freqEstimate]
  rw [if_pos hspan]

/-- Witness for the amended C1 on the buffer with times [0, 1] and
voltages [0, 1]. -/
theorem displayed_freq_thousandfold_crossing_rate_witness :
    ∃ out, update_display (fun _ => "f") ⟨[0, 1], [0, 1], "", "", "", "", ""⟩ = some out ∧
      out.freq_label = (fun _ => "f")
        (((countCrossings (pyMean ((0 : ℚ) :: [1])) ((0 : ℚ) :: [1]) : ℚ) /
          (((0 : ℚ) :: [1]).getLastD 0 - 0)) * 1000) :=
  displayed_freq_thousandfold_crossing_rate (fun _ => "f") _ 0 0 [1] [1] rfl rfl
    (by with_unfolding_all decide)

/-- C3: on every non-empty buffer the measurement engine displays Vmax =
maximum voltage, Vmin = minimum voltage, Vpp = Vmax - Vmin and Vavg =
arithmetic mean of the voltages; on the buffer [(0,1),(1,3),(2,1)] the
values are mean 5/3, max 3, min 1 and vpp 2. -/
theorem measurement_engine_values (fmt : ℚ → String) (s : ScopeState) (t0 v0 : ℚ)
    (ts vs : List ℚ) (ht : s.time_data = t0 :: ts) (hv : s.voltage_data = v0 :: vs) :
    (∃ out, update_display fmt s = some out ∧
      out.vmax_label = fmt (pyMax v0 vs) ∧ out.vmin_label = fmt (pyMin v0 vs) ∧
      out.vpp_label = fmt (pyMax v0 vs - pyMin v0 vs) ∧
      out.vavg_label = fmt (pyMean (v0 :: vs))) ∧
    pyMax v0 vs ∈ v0 :: vs ∧ (∀ x ∈ v0 :: vs, x ≤ pyMax v0 vs) ∧
    pyMin v0 vs ∈ v0 :: vs ∧ (∀ x ∈ v0 :: vs, pyMin v0 vs ≤ x) ∧
    pyMean (v0 :: vs) = (v0 :: vs).sum / ((v0 :: vs).length : ℚ) ∧
    pyMean [1, 3, 1] = 5 / 3 ∧ pyMax 1 [3, 1] = 3 ∧ pyMin 1 [3, 1] = 1 ∧
    pyMax 1 [3, 1] - pyMin 1 [3, 1] = 2 := by
  refine ⟨⟨_, update_display_eq fmt s t0 v0 ts vs ht hv, rfl, rfl, rfl, rfl⟩,
    foldl_max_mem v0 vs, fun x hx => le_foldl_max v0 x vs hx,
    foldl_min_mem v0 vs, fun x hx => foldl_min_le v0 x vs hx,
    rfl, ?_, ?_, ?_, ?_⟩ <;> with_unfolding_all decide

/-- Witness for C3 on the spec's example buffer [(0,1),(1,3),(2,1)]. -/
theorem measurement_engine_values_witness :
    (∃ out, update_display (fun _ => "m") ⟨[0, 1, 2], [1, 3, 1], "", "", "", "", ""⟩ = some out ∧
      out.vmax_label = (fun _ => "m") (pyMax 1 [3, 1]) ∧
      out.vmin_label = (fun _ => "m") (pyMin 1 [3, 1]) ∧
      out.vpp_label = (fun _ => "m") (pyMax 1 [3, 1] - pyMin 1 [3, 1]) ∧
      out.vavg_label = (fun _ => "m") (pyMean ((1 : ℚ) :: [3, 1]))) ∧
    pyMax 1 [3, 1] ∈ (1 : ℚ) :: [3, 1] ∧ (∀ x ∈ (1 : ℚ) :: [3, 1], x ≤ pyMax 1 [3, 1]) ∧
    pyMin 1 [3, 1] ∈ (1 : ℚ) :: [3, 1] ∧ (∀ x ∈ (1 : ℚ) :: [3, 1], pyMin 1 [3, 1] ≤ x) ∧
    pyMean ((1 : ℚ) :: [3, 1]) = ((1 : ℚ) :: [3, 1]).sum / (((1 : ℚ) :: [3, 1]).length : ℚ) ∧
    pyMean [1, 3, 1] = 5 / 3 ∧ pyMax 1 [3, 1] = 3 ∧ pyMin 1 [3, 1] = 1 ∧
    pyMax 1 [3, 1] - pyMin 1 [3, 1] = 2 :=
  measurement_engine_values (fun _ => "m") _ 0 1 [1, 2] [3, 1] rfl rfl

/-- C2 (violation at the failing input): after a serial capture of the
lines ["SCOPE_START", "1.0,abc"], the published time sequence has length
1 while the voltage sequence has length 0, because the time value is
appended before the voltage field fails to parse.  Demo generation and
clearing do publish equal lengths. -/
theorem capture_publishes_unequal_lengths :
    (capture_thread ["SCOPE_START", "1.0,abc"]).1.length = 1 ∧
    (capture_thread ["SCOPE_START", "1.0,abc"]).2.length = 0 ∧
    (generate_demo_data "SINE" 1000 200 (List.replicate 1000 0)).1.length =
      (generate_demo_data "SINE" 1000 200 (List.replicate 1000 0)).2.length ∧
    (clear_display ⟨[1], [2, 3], "a", "b", "c", "d", "e"⟩).time_data.length =
      (clear_display ⟨[1], [2, 3], "a", "b", "c", "d", "e"⟩).voltage_data.length := by
  refine ⟨by with_unfolding_all decide, by with_unfolding_all decide, ?_, rfl⟩
  simp [generate_demo_data, np_linspace]

/-- C5 (behavior including the failing input): lines before SCOPE_START
are ignored, well-formed data lines are appended as (time/1000, voltage)
pairs, a line without a comma and a line whose first field does not
parse are skipped, SCOPE_END stops the capture, and exhausting the input
(the timeout) publishes the partial data as-is; but the line "1.0,abc",
whose voltage field does not parse, appends its time value instead of
being skipped as a whole. -/
theorem capture_line_handling :
    capture_thread ["0,9", "SCOPE_START", "5,1.5", "nocomma", "x,y", "10,2.5",
        "1.0,abc", "SCOPE_END", "99,9"] =
      ([5 / 1000, 10 / 1000, 1 / 1000], [3 / 2, 5 / 2]) ∧
    capture_thread ["SCOPE_START", "7,1"] = ([7 / 1000], [1]) := by
  constructor <;> with_unfolding_all decide

theorem abs_signalAt_le_one (w : String) (x : ℝ) : |signalAt w x| ≤ 1 := by
  unfold signalAt
  split_ifs
  · exact abs_le.mpr ⟨Real.neg_one_le_sin _, Real.sin_le_one _⟩
  · rcases lt_trichotomy (Real.sin (2 * Real.pi * x)) 0 with h | h | h
    · rw [Real.sign_of_neg h]
      norm_num
    · rw [h, Real.sign_zero]
      norm_num
    · rw [Real.sign_of_pos h]
      norm_num
  · have h0 := Int.fract_nonneg x
    have h1 := Int.fract_lt_one x
    have habs : |2 * Int.fract x - 1| ≤ 1 := abs_le.mpr ⟨by linarith, by linarith⟩
    have habs0 : (0 : ℝ) ≤ |2 * Int.fract x - 1| := abs_nonneg _
    exact abs_le.mpr ⟨by linarith, by linarith⟩
  · have h0 := Int.fract_nonneg x
    have h1 := Int.fract_lt_one x
    exact abs_le.mpr ⟨by linarith, by linarith⟩
  · norm_num

/-- C7: for each of the four waveform kinds, with the amplitude fraction
amp_raw/255 in [0,1] and every additive noise term bounded in magnitude
by noise_bound, every synthesized voltage lies within
[1.65 - 1.5·amp_frac - noise_bound, 1.65 + 1.5·amp_frac + noise_bound],
because every waveform signal value lies in [-1, 1]. -/
theorem demo_voltage_bounded (wave_type : String) (freq amp_raw : ℚ)
    (noise : List ℝ) (noise_bound : ℝ)
    (hw : wave_type ∈ ["SINE", "SQUARE", "TRIANGLE", "SAWTOOTH"])
    (h0 : 0 ≤ amp_raw) (h255 : amp_raw ≤ 255)
    (hn : ∀ nz ∈ noise, |nz| ≤ noise_bound) :
    (∀ x : ℝ, |signalAt wave_type x| ≤ 1) ∧
    ∀ v ∈ (generate_demo_data wave_type freq amp_raw noise).2,
      1.65 - 1.5 * ((amp_raw / 255 : ℚ) : ℝ) - noise_bound ≤ v ∧
      v ≤ 1.65 + 1.5 * ((amp_raw / 255 : ℚ) : ℝ) + noise_bound := by
  refine ⟨fun x => abs_signalAt_le_one wave_type x, fun v hv => ?_⟩
  simp only [generate_demo_data] at hv
  obtain ⟨td, htd, nz, hnz, rfl⟩ := exists_of_mem_zipWith hv
  have hA0 : (0 : ℝ) ≤ ((amp_raw / 255 : ℚ) : ℝ) := by
    rw [Rat.cast_nonneg]
    positivity
  have hA1 : ((amp_raw / 255 : ℚ) : ℝ) ≤ 1 := by
    have : (amp_raw / 255 : ℚ) ≤ 1 := by
      rw [div_le_one (by norm_num)]
      exact h255
    exact_mod_cast this
  have hs := abs_le.mp (abs_signalAt_le_one wave_type (((freq * (td / 1000) : ℚ)) : ℝ))
  have hnb := abs_le.mp (hn nz hnz)
  constructor
  · nlinarith [hs.1, hs.2, hnb.1, hnb.2, hA0, hA1]
  · nlinarith [hs.1, hs.2, hnb.1, hnb.2, hA0, hA1]

/-- Witness for C7 with the sine waveform, amplitude 200, empty noise
list and noise bound 0. -/
theorem demo_voltage_bounded_witness :
    (∀ x : ℝ, |signalAt "SINE" x| ≤ 1) ∧
    ∀ v ∈ (generate_demo_data "SINE" 1000 200 ([] : List ℝ)).2,
      1.65 - 1.5 * (((200 : ℚ) / 255 : ℚ) : ℝ) - 0 ≤ v ∧
      v ≤ 1.65 + 1.5 * (((200 : ℚ) / 255 : ℚ) : ℝ) + 0 :=
  demo_voltage_bounded "SINE" 1000 200 [] 0 (by decide) (by norm_num) (by norm_num)
    (by simp)

/-- C4: the demo synthesizer always produces exactly 1000 time samples
spanning 0 to 100 (milliseconds) and 1000 voltage samples, each voltage
being 1.65 + (amp_raw/255)·1.5·signal(freq·t) + its noise term with t
the sample time in seconds, where the signal formulas are
sine = sin(2πft), square = sign(sin(2πft)),
triangle = 2·|2·frac(ft)-1|-1, sawtooth = 2·frac(ft)-1. -/
theorem demo_generator_spec (wave_type : String) (freq amp_raw : ℚ) (noise : List ℝ)
    (hn : noise.length = 1000) :
    (generate_demo_data wave_type freq amp_raw noise).1.length = 1000 ∧
    (generate_demo_data wave_type freq amp_raw noise).2.length = 1000 ∧
    (generate_demo_data wave_type freq amp_raw noise).1[0]? = some 0 ∧
    (generate_demo_data wave_type freq amp_raw noise).1[999]? = some 100 ∧
    (∀ i, i < 1000 → ∃ td nz,
      (generate_demo_data wave_type freq amp_raw noise).1[i]? = some td ∧
      noise[i]? = some nz ∧
      (generate_demo_data wave_type freq amp_raw noise).2[i]? =
        some (1.65 + ((amp_raw / 255 : ℚ) : ℝ) * 1.5 *
          signalAt wave_type (((freq * (td / 1000) : ℚ)) : ℝ) + nz)) ∧
    (∀ x : ℝ, signalAt "SINE" x = Real.sin (2 * Real.pi * x)) ∧
    (∀ x : ℝ, signalAt "SQUARE" x = Real.sign (Real.sin (2 * Real.pi * x))) ∧
    (∀ x : ℝ, signalAt "TRIANGLE" x = 2 * |2 * Int.fract x - 1| - 1) ∧
    (∀ x : ℝ, signalAt "SAWTOOTH" x = 2 * Int.fract x - 1) := by
  refine ⟨?_, ?_, ?_, ?_, ?_, ?_, ?_, ?_, ?_⟩
  · simp [generate_demo_data, np_linspace]
  · simp [generate_demo_data, np_linspace, hn]
  · simp only [generate_demo_data, np_linspace]
    rw [List.getElem?_map, List.getElem?_range (by norm_num)]
    norm_num
  · simp only [generate_demo_data, np_linspace]
    rw [List.getElem?_map, List.getElem?_range (by norm_num)]
    norm_num
  · intro i hi
    have hlt : i < noise.length := by rw [hn]; exact hi
    have hnz := List.getElem?_eq_getElem hlt
    have htd : (np_linspace 0 100 1000)[i]? =
        some ((0 : ℚ) + (100 - 0) * (i : ℚ) / (((1000 : ℕ) : ℚ) - 1)) := by
      simp only [np_linspace]
      rw [List.getElem?_map, List.getElem?_range hi]
      rfl
    refine ⟨_, _, htd, hnz, ?_⟩
    simp only [generate_demo_data]
    rw [List.getElem?_zipWith']
    simp only [np_linspace] at htd ⊢
    rw [htd, hnz]
    rfl
  · intro x; rfl
  · intro x
    unfold signalAt
    rw [if_neg (by decide), if_pos rfl]
  · intro x
    unfold signalAt
    rw [if_neg (by decide), if_neg (by decide), if_pos rfl]
  · intro x
    unfold signalAt
    rw [if_neg (by decide), if_neg (by decide), if_neg (by decide), if_pos rfl]

/-- Witness for C4 with the sine waveform and an all-zero noise list. -/
theorem demo_generator_spec_witness :
    (List.replicate 1000 (0 : ℝ)).length = 1000 ∧
    (generate_demo_data "SINE" 1000 200 (List.replicate 1000 0)).1.length = 1000 ∧
    (generate_demo_data "SINE" 1000 200 (List.replicate 1000 0)).1[0]? = some 0 :=
  have h := demo_generator_spec "SINE" 1000 200 (List.replicate 1000 0) (by simp)
  ⟨by simp, h.1, h.2.2.1⟩

end Oscilloscope
